import Mathlib

/-!
Verification of the Excel-AI-Dashboard core (schema inference, aggregation,
filtering, suggestion validation) against its natural-language specification.

The JavaScript sources are shallowly embedded below:
* `backend/services/dataProcessor.js` — `DataProcessor.generateSchema`,
  `DataProcessor.inferDataType`;
* `backend/services/calculator.js` — `Calculator.prepareChartData`,
  `groupByDimension`, `sortChartData`, `prepareCustomChartData`,
  `sortCustomChartData`, `applyFilters`, `formatValue`;
* `backend/services/aiService.js` — `AIService.validateSuggestions`,
  `getFallbackSuggestions`, `getSuggestions`, `generateCacheKey`.

JavaScript numbers are modelled as rationals plus explicit NaN; scalar cell
values as a sum type mirroring the primitive values the row-set provider can
produce.  Strings are Lean `String`s; `Buffer.from(s)` (UTF-8 bytes) is
modelled by an explicit UTF-8 encoder.
-/

namespace Dashboard

/-- A primitive JavaScript scalar value as stored in a row cell:
a finite number, `NaN`, a string, a boolean, `null`, or `undefined`
(the result of reading a missing key). -/
inductive JSVal where
  | num (q : ℚ)
  | nan
  | str (s : String)
  | bool (b : Bool)
  | null
  | undefined
deriving DecidableEq, Repr

/-- JavaScript truthiness of a primitive value: `0`, `NaN`, `""`, `false`,
`null` and `undefined` are falsy; everything else is truthy. -/
def JSVal.truthy : JSVal → Bool
  | .num q => q ≠ 0
  | .nan => false
  | .str s => s ≠ ""
  | .bool b => b
  | .null => false
  | .undefined => false

/-- Decimal digits of a natural number, most significant first. -/
def natDigits (n : Nat) : List Char :=
  (Nat.toDigits 10 n)

/-- Rendering of an integer in decimal, as JavaScript prints integral numbers. -/
def intToString (i : ℤ) : String :=
  if i < 0 then "-" ++ String.mk (natDigits i.natAbs) else String.mk (natDigits i.natAbs)

/-- `String(value)` for a numeric value.  Integral numbers print as decimal
integers, which is all the claims exercise; non-integral rationals are
rendered as `numerator/denominator` (the sources never stringify a
non-integral aggregate in any claim under verification). -/
def numToString (q : ℚ) : String :=
  if q.den = 1 then intToString q.num
  else intToString q.num ++ "/" ++ String.mk (natDigits q.den)

/-- JavaScript `String(value)` coercion of a primitive value. -/
def JSVal.toStr : JSVal → String
  | .num q => numToString q
  | .nan => "NaN"
  | .str s => s
  | .bool b => if b then "true" else "false"
  | .null => "null"
  | .undefined => "undefined"

/-- Is `c` an ASCII decimal digit? -/
def isDigitChar (c : Char) : Bool := '0' ≤ c ∧ c ≤ '9'

/-- Numeric value of a digit list, most significant first. -/
def digitsToNat (l : List Char) : Nat :=
  l.foldl (fun acc c => acc * 10 + (c.toNat - '0'.toNat)) 0

/-- The rational value of a decimal literal `intDigits.fracDigits` with an
optional leading minus: all digits over `10 ^ |fracDigits|`. -/
def decimalVal (neg : Bool) (intDigits fracDigits : List Char) : ℚ :=
  let n : ℤ := digitsToNat intDigits * 10 ^ fracDigits.length + digitsToNat fracDigits
  mkRat (if neg then -n else n) (10 ^ fracDigits.length)

/-- Leading-prefix float parse, as JavaScript `parseFloat` performs on the
decimal forms the data pipeline produces (`[sign] digits [. digits]`);
returns `none` when no leading number exists (then `parseFloat` gives `NaN`).
Exponent and hexadecimal notations are not produced by the pipeline and are
not modelled. -/
def parseFloatChars (l : List Char) : Option ℚ :=
  let (neg, rest) :=
    match l with
    | '-' :: r => (true, r)
    | '+' :: r => (false, r)
    | r => (false, r)
  let intDigits := rest.takeWhile isDigitChar
  let rest2 := rest.dropWhile isDigitChar
  let fracDigits :=
    match rest2 with
    | '.' :: r2 => r2.takeWhile isDigitChar
    | _ => []
  if intDigits.isEmpty ∧ fracDigits.isEmpty then none
  else some (decimalVal neg intDigits fracDigits)

/-- `parseFloat(s)` on a string, `none` meaning `NaN`. -/
def parseFloatStr (s : String) : Option ℚ := parseFloatChars s.toList

/-- `parseFloat(value) || 0`: the row-cell-to-number coercion used by every
aggregation in `calculator.js`.  `parseFloat` of a non-string non-number
first stringifies; `"true"`, `"null"`, `"undefined"`, `"NaN"` all parse to
`NaN`, and `NaN || 0` is `0`. -/
def parseNum (v : JSVal) : ℚ :=
  match v with
  | .num q => q
  | .nan => 0
  | .str s => (parseFloatStr s).getD 0
  | .bool _ => 0
  | .null => 0
  | .undefined => 0

/-- Full-string numeric coercion `Number(s)`, used by `isNaN(s)` in
`sortCustomChartData`; `none` means the coercion yields `NaN`.
A whitespace-only or empty string coerces to `0`; otherwise the whole
string must be a decimal number. -/
def numberCoerce (s : String) : Option ℚ :=
  let l := s.toList.dropWhile (· = ' ') |>.reverse.dropWhile (· = ' ') |>.reverse
  if l.isEmpty then some 0
  else
    let (neg, rest) :=
      match l with
      | '-' :: r => (true, r)
      | '+' :: r => (false, r)
      | r => (false, r)
    let intDigits := rest.takeWhile isDigitChar
    let rest2 := rest.dropWhile isDigitChar
    match rest2 with
    | [] => if intDigits.isEmpty then none else some (decimalVal neg intDigits [])
    | '.' :: r2 =>
      let fracDigits := r2.takeWhile isDigitChar
      if r2.dropWhile isDigitChar ≠ [] then none
      else if intDigits.isEmpty ∧ fracDigits.isEmpty then none
      else some (decimalVal neg intDigits fracDigits)
    | _ => none

/-- `isNaN(s)` for a string key (`Number` coercion produces `NaN`). -/
def jsIsNaN (s : String) : Bool := (numberCoerce s).isNone

/-- Per-character lowercase (`String.prototype.toLowerCase` on the ASCII
names this pipeline handles). -/
def strToLower (s : String) : String := String.mk (s.toList.map Char.toLower)

/-- `a.localeCompare(b) <= 0`, modelled as code-point (lexicographic) string
order.  The default `en` collation agrees with code-point order on strings
of ASCII digits (the only class for which a sortedness theorem is stated
below) but not in general — e.g. it orders `"apple"` before `"Banana"` —
so no theorem asserts code-point sortedness for other keys. -/
def strLe (a b : String) : Bool := decide (a.toList ≤ b.toList)

/-- A row: a flat mapping from column names to scalar values, modelled as an
association list with distinct keys (JavaScript object). -/
def Row := List (String × JSVal)

instance : DecidableEq Row := inferInstanceAs (DecidableEq (List (String × JSVal)))

/-- `row[k]`: property access; a missing key reads as `undefined`. -/
def rowGet (r : Row) (k : String) : JSVal :=
  match r.lookup k with
  | some v => v
  | none => .undefined

/-! ## DataProcessor (`backend/services/dataProcessor.js`) -/

/-- Inferred column type. -/
inductive DType where
  | number
  | date
  | strT
deriving DecidableEq, Repr

/-- Does the string match `/^\d{4}-\d{2}-\d{2}$/`? -/
def isDateString (s : String) : Bool :=
  match s.toList with
  | [a, b, c, d, h1, e, f, h2, g, i] =>
    isDigitChar a ∧ isDigitChar b ∧ isDigitChar c ∧ isDigitChar d ∧ h1 = '-' ∧
    isDigitChar e ∧ isDigitChar f ∧ h2 = '-' ∧ isDigitChar g ∧ isDigitChar i
  | _ => false

/-- Is the value counted by `inferDataType` as a number
(`typeof value === 'number' && !isNaN(value)`)? -/
def isNumberVal (v : JSVal) : Bool :=
  match v with
  | .num _ => true
  | _ => false

/-- Is the value counted by `inferDataType` as a date
(a string matching the `YYYY-MM-DD` pattern)? -/
def isDateVal (v : JSVal) : Bool :=
  match v with
  | .str s => isDateString s
  | _ => false

/-- `numberCount` of `DataProcessor.inferDataType`. -/
def numberCount (values : List JSVal) : Nat := (values.filter isNumberVal).length

/-- `dateCount` of `DataProcessor.inferDataType`. -/
def dateCount (values : List JSVal) : Nat := (values.filter isDateVal).length

/-- `DataProcessor.inferDataType`: dominant-type inference at the 80%
threshold.  `numberCount / total > 0.8` is expressed integrally as
`5 * numberCount > 4 * total`. -/
def inferDataType (values : List JSVal) : DType :=
  if values.length = 0 then .strT
  else if 5 * numberCount values > 4 * values.length then .number
  else if 5 * dateCount values > 4 * values.length then .date
  else .strT

/-- Per-column metadata computed by `generateSchema`. -/
structure ColumnInfo where
  name : String
  type : DType
  nullable : Bool
  uniqueValues : Nat
  sampleValues : List JSVal
deriving DecidableEq, Repr

/-- Inferred schema. -/
structure Schema where
  columns : List ColumnInfo
  measures : List ColumnInfo
  dimensions : List ColumnInfo
deriving DecidableEq, Repr

/-- Is the cell value non-null (`val !== null && val !== undefined`)? -/
def isPresent (v : JSVal) : Bool :=
  match v with
  | .null => false
  | .undefined => false
  | _ => true

/-- The non-null values of column `c` across `data`
(`data.map(row => row[column]).filter(val => val !== null && val !== undefined)`). -/
def columnValues (data : List Row) (c : String) : List JSVal :=
  (data.map (fun r => rowGet r c)).filter isPresent

/-- `Object.keys(data[0])`: the column names, taken from the first row.
JavaScript object keys are distinct; an association-list model realises this
by deduplication. -/
def headKeys (data : List Row) : List String :=
  match data with
  | [] => []
  | r :: _ => (r.map Prod.fst).dedup

/-- The `columnInfo` record `generateSchema` builds for one column. -/
def mkColumnInfo (data : List Row) (c : String) : ColumnInfo :=
  let values := columnValues data c
  { name := c
    type := inferDataType values
    nullable := values.length < data.length
    uniqueValues := values.dedup.length
    sampleValues := values.take 5 }

/-- The measure test of `generateSchema`:
`dataType === 'number' && columnInfo.uniqueValues > 5`. -/
def isMeasure (ci : ColumnInfo) : Bool :=
  ci.type = DType.number ∧ ci.uniqueValues > 5

/-- `DataProcessor.generateSchema` on a non-empty row set: build a
`ColumnInfo` per column of the first row and classify each into measures or
dimensions.  (On empty input the source throws `'No data to analyze'`;
the embedding is used only under the non-emptiness hypothesis.) -/
def generateSchema (data : List Row) : Schema :=
  let infos := (headKeys data).map (mkColumnInfo data)
  { columns := infos
    measures := infos.filter isMeasure
    dimensions := infos.filter (fun ci => ! isMeasure ci) }

/-! ## Calculator (`backend/services/calculator.js`) -/

/-- A chart definition as consumed by `prepareChartData`
(the title plays no role in data preparation). -/
structure ChartDef where
  type : String
  measures : List String
  dimensions : List String
deriving DecidableEq, Repr

/-- One aggregated data point: the object
`{ [primaryDimension]: key, [measure₁]: v₁, ... }`.  Its JavaScript key
order is the dimension name followed by the measure names in definition
order. -/
structure DataPoint where
  dimName : String
  dimValue : String
  vals : List (String × ℚ)
deriving DecidableEq, Repr

/-- `row[dimension] || 'Unknown'`: the group key of a row — any falsy cell
(missing, `null`, `0`, `""`, `false`, `NaN`) maps to the literal
`"Unknown"`; a truthy value is used (stringified, as a JavaScript object
key) as the group key. -/
def jsGroupKey (v : JSVal) : String :=
  if v.truthy then v.toStr else "Unknown"

/-- Append `r` to the group keyed `k`, creating the group on first sight
(`groups[key].push(row)`). -/
def addToGroup (groups : List (String × List Row)) (k : String) (r : Row) :
    List (String × List Row) :=
  match groups with
  | [] => [(k, [r])]
  | (k', g) :: rest =>
    if k' = k then (k', g ++ [r]) :: rest else (k', g) :: addToGroup rest k r

/-- `Calculator.groupByDimension`: partition rows by the (falsy-defaulted)
dimension value.  Groups appear in first-occurrence order; the JavaScript
engine additionally fronts integer-like keys in `Object.keys`, a reordering
that the order-insensitive theorems below never rely on. -/
def groupByDimension (data : List Row) (dim : String) : List (String × List Row) :=
  data.foldl (fun groups r => addToGroup groups (jsGroupKey (rowGet r dim)) r) []

/-- Sum of the parsed measure values of a group
(`values.reduce((sum, val) => sum + val, 0)` over `parseFloat(row[m]) || 0`). -/
def aggSum (group : List Row) (m : String) : ℚ :=
  (group.map (fun r => parseNum (rowGet r m))).sum

/-- Per-group average used by the scatter branch of
`prepareCustomChartData` (`values.length > 0 ? sum / values.length : 0`). -/
def aggAvg (group : List Row) (m : String) : ℚ :=
  if group.length = 0 then 0 else aggSum group m / group.length

/-- Build the data point of one group. -/
def mkDataPoint (dim k : String) (group : List Row) (measures : List String)
    (agg : List Row → String → ℚ) : DataPoint :=
  { dimName := dim, dimValue := k, vals := measures.map (fun m => (m, agg group m)) }

/-- `a[m] || 0` on a data point: the aggregated value of measure `m`,
`0` when absent. -/
def dpVal (dp : DataPoint) (m : String) : ℚ :=
  match dp.vals.lookup m with
  | some q => q
  | none => 0

/-- `a[k]` on a data point object. -/
def dpGet (dp : DataPoint) (k : String) : JSVal :=
  if k = dp.dimName then .str dp.dimValue
  else
    match dp.vals.lookup k with
    | some q => .num q
    | none => .undefined

/-- `Object.keys(a).find(k => k !== primaryMeasure)` in `sortChartData`,
with `Object.keys` modelled as insertion order (dimension name first, then
measure names).  An engine additionally fronts array-index keys
(`isArrayIndexKey`) in ascending numeric order; the insertion-order model
coincides with the engine whenever no measure name is such a key, the
hypothesis under which the sortedness theorem below is stated. -/
def findKey (dp : DataPoint) (pm : String) : Option String :=
  (dp.dimName :: dp.vals.map Prod.fst).find? (fun k => k ≠ pm)

/-- `String(a[aKey])` for the found key (`a[undefined]` stringifies to
`"undefined"` when every key equals the primary measure). -/
def sortKeyStr (dp : DataPoint) (pm : String) : String :=
  match findKey dp pm with
  | none => "undefined"
  | some k => (dpGet dp k).toStr

/-- `Calculator.sortChartData`: pie/bar/default sort descending by the first
measure's value; line/area sort by `localeCompare` on the stringified
found key only.  `localeCompare` is modelled as code-point string order,
with which it agrees on the ASCII keys this pipeline produces.  The sort
itself is modelled by a stable merge sort, as JavaScript's `Array.sort`. -/
def sortChartData (data : List DataPoint) (pm : String) (chartType : String) :
    List DataPoint :=
  if chartType = "line" ∨ chartType = "area" then
    data.mergeSort (fun a b => strLe (sortKeyStr a pm) (sortKeyStr b pm))
  else
    data.mergeSort (fun a b => dpVal b pm ≤ dpVal a pm)

/-- `Calculator.prepareChartData`: group by the first dimension, sum every
measure inside each group (for every chart type), then sort. -/
def prepareChartData (data : List Row) (cd : ChartDef) : List DataPoint :=
  if cd.measures.isEmpty ∨ cd.dimensions.isEmpty then []
  else
    let dim := cd.dimensions.headD ""
    let grouped := groupByDimension data dim
    let chartData := grouped.map (fun p => mkDataPoint dim p.1 p.2 cd.measures aggSum)
    sortChartData chartData (cd.measures.headD "") cd.type

/-- `isNaN(value)`: does the `Number` coercion of the value produce `NaN`? -/
def jsValIsNaN (v : JSVal) : Bool :=
  match v with
  | .num _ => false
  | .nan => true
  | .str s => jsIsNaN s
  | .bool _ => false
  | .null => false
  | .undefined => true

/-- Days in a month of the proleptic Gregorian calendar, as the ECMAScript
ISO date-time parser validates them (month 2 honours leap years). -/
def daysInMonth (y m : Nat) : Nat :=
  if m = 2 then if (y % 4 = 0 ∧ y % 100 ≠ 0) ∨ y % 400 = 0 then 29 else 28
  else if m = 4 ∨ m = 6 ∨ m = 9 ∨ m = 11 then 30 else 31

/-- `new Date(value).getTime()` as an order value on the `YYYY-MM-DD` forms
the data pipeline produces, `none` meaning an invalid date: the ECMAScript
ISO parser accepts a date-only string exactly when the month is 1..12 and
the day fits the month, and rejects it otherwise.  The encoding
`y·10000 + m·100 + d` is order-isomorphic to the millisecond timestamp on
the accepted forms.  Date strings in other layouts (e.g. `"March 2020"`)
are not modelled, so theorems about date ordering are stated only for
inputs this parser accepts, and no theorem asserts string comparison for
unmodelled date-like keys. -/
def jsDateOf (v : JSVal) : Option ℤ :=
  match v with
  | .str s =>
    if isDateString s then
      match s.toList with
      | [a, b, c, d, _, e, f, _, g, i] =>
        let y := digitsToNat [a, b, c, d]
        let m := digitsToNat [e, f]
        let day := digitsToNat [g, i]
        if 1 ≤ m ∧ m ≤ 12 ∧ 1 ≤ day ∧ day ≤ daysInMonth y m then
          some ((y * 10000 + m * 100 + day : Nat) : ℤ)
        else none
      | _ => none
    else none
  | _ => none

/-- Is the string a canonical array-index property key — non-empty, all
decimal digits with no leading zero, below `2^32 - 1`?  JavaScript engines
front such keys, in ascending numeric order, in `Object.keys`; the find-key
model below assumes insertion order, which coincides with the engine
whenever no measure name is such a key. -/
def isArrayIndexKey (s : String) : Bool :=
  match s.toList with
  | [] => false
  | c :: rest =>
    (c :: rest).all isDigitChar &&
    (decide (c ≠ '0') || rest.isEmpty) &&
    digitsToNat (c :: rest) < 4294967295

/-- Does this key value compare numerically in the line/area comparator,
identically in the model and in the engine: a number, or a string whose
full `Number` coercion and leading `parseFloat` both succeed (ruling out
booleans, `null`, whitespace-only strings, and exponent or hexadecimal
forms the parse model does not cover)? -/
def numericKey (v : JSVal) : Bool :=
  match v with
  | .num _ => true
  | .str s => !(jsIsNaN s) && (parseFloatStr s).isSome
  | _ => false

/-- The line/area comparator of `sortCustomChartData` as a `≤` test:
numeric comparison when neither value's `Number` coercion is `NaN`,
else date comparison when both parse as valid dates,
else string comparison of the stringified values. -/
def customLeVal (av bv : JSVal) : Bool :=
  if ¬ jsValIsNaN av ∧ ¬ jsValIsNaN bv then
    parseNum av ≤ parseNum bv
  else
    match jsDateOf av, jsDateOf bv with
    | some x, some y => x ≤ y
    | _, _ => strLe av.toStr bv.toStr

/-- `Calculator.sortCustomChartData`: pie and bar/scatter/default sort
descending by the first measure's value; line/area sort ascending by the
primary dimension's value under the numeric → date → string precedence. -/
def sortCustomChartData (data : List DataPoint) (pm : String) (chartType : String)
    (dim : String) : List DataPoint :=
  if chartType = "line" ∨ chartType = "area" then
    data.mergeSort (fun a b => customLeVal (dpGet a dim) (dpGet b dim))
  else
    data.mergeSort (fun a b => dpVal b pm ≤ dpVal a pm)

/-- `Calculator.prepareCustomChartData`: like `prepareChartData` but the
aggregation is the per-group average when `chartType` is `scatter` and the
sum otherwise; throws (`none`) when measures or dimensions are missing. -/
def prepareCustomChartData (data : List Row) (measures dimensions : List String)
    (chartType : String) : Option (List DataPoint) :=
  if measures.isEmpty ∨ dimensions.isEmpty then none
  else
    let dim := dimensions.headD ""
    let agg := if chartType = "scatter" then aggAvg else aggSum
    let grouped := groupByDimension data dim
    let chartData := grouped.map (fun p => mkDataPoint dim p.1 p.2 measures agg)
    some (sortCustomChartData chartData (measures.headD "") chartType dim)

/-- One filter entry: does the row pass
(`absent/empty always passes; null/undefined cells pass when "null" or
"undefined" is allowed; otherwise membership of the stringified value`)? -/
def rowPassesEntry (r : Row) (key : String) (fvs : List String) : Bool :=
  if fvs.isEmpty then true
  else
    match rowGet r key with
    | .null => fvs.contains "null" ∨ fvs.contains "undefined"
    | .undefined => fvs.contains "null" ∨ fvs.contains "undefined"
    | v => fvs.contains v.toStr

/-- `Calculator.applyFilters(data, filters)`: logical AND across filter
entries, preserving input order.  The function takes no record-count limit:
its signature is `(data, filters)`, so the `dataLimit` third argument that
`backend/routes/api.js` passes is silently ignored. -/
def applyFilters (data : List Row) (filters : List (String × List String)) :
    List Row :=
  if filters.isEmpty then data
  else data.filter (fun r => filters.all (fun p => rowPassesEntry r p.1 p.2))

/-- A JavaScript number as `formatValue` receives it: finite, `NaN`, or an
infinity. -/
inductive JNum where
  | fin (q : ℚ)
  | nan
  | inf
  | ninf
deriving DecidableEq, Repr

/-- Split a digit string into groups of three starting from the head
(used on the reversed, least-significant-first digit list). -/
def chunks3 : List Char → List (List Char)
  | [] => []
  | [a] => [[a]]
  | [a, b] => [[a, b]]
  | a :: b :: c :: rest => [a, b, c] :: chunks3 rest

/-- Thousands grouping of a natural number with `','`, as the `en-US`
locale prints integers. -/
def groupDigits (n : Nat) : String :=
  let rev := (natDigits n).reverse
  String.mk (List.intercalate [','] ((chunks3 rev).map List.reverse).reverse)

/-- `⌊10·q + 1/2⌋` on the numerator and denominator: the integer the
`toFixed(1)` rounding selects for non-negative `q` (nearest tenth, ties to
the larger candidate, per ECMA-262). -/
def round1 (q : ℚ) : ℤ := (20 * q.num + q.den) / (2 * (q.den : ℤ))

/-- `(x).toFixed(1)` for non-negative `x`: one fractional digit, nearest
value, ties resolved to the larger candidate (ECMA-262 `Number.prototype.toFixed`). -/
def toFixed1Pos (q : ℚ) : String :=
  let n := (round1 q).toNat
  String.mk (natDigits (n / 10)) ++ "." ++ String.mk (natDigits (n % 10))

/-- `(x).toFixed(1)` (negative inputs format the negated value behind a
sign, per ECMA-262). -/
def toFixed1 (q : ℚ) : String :=
  if q < 0 then "-" ++ toFixed1Pos (-q) else toFixed1Pos q

/-- `value.toLocaleString()` (en-US default): grouped integer part and at
most three rounded fractional digits with trailing zeros dropped.
The claims exercise it only on integral values. -/
def toLocaleStrPos (q : ℚ) : String :=
  if q.den = 1 then groupDigits q.num.toNat
  else
    let scaled := ((2000 * q.num + q.den) / (2 * (q.den : ℤ))).toNat
    let frac := scaled % 1000
    let fracDigits := (Nat.toDigits 10 frac)
    let padded := List.replicate (3 - fracDigits.length) '0' ++ fracDigits
    let trimmed := (padded.reverse.dropWhile (· = '0')).reverse
    groupDigits (scaled / 1000) ++
      (if trimmed.isEmpty then "" else "." ++ String.mk trimmed)

/-- Signed `toLocaleString`. -/
def toLocaleStr (q : ℚ) : String :=
  if q < 0 then "-" ++ toLocaleStrPos (-q) else toLocaleStrPos q

/-- The `number`/default branch of `formatValue`. -/
def formatNumberBranch (q : ℚ) : String :=
  if q ≥ 1000000 then toFixed1 (q / 1000000) ++ "M"
  else if q ≥ 1000 then toFixed1 (q / 1000) ++ "K"
  else toLocaleStr q

/-- Whole-unit USD rendering, modelling
`Intl.NumberFormat('en-US', {style:'currency', currency:'USD',
minimumFractionDigits:0, maximumFractionDigits:0})`. -/
def formatCurrency (q : ℚ) : String :=
  let a := if q < 0 then -q else q
  let n := ((2 * a.num + a.den) / (2 * (a.den : ℤ))).toNat
  (if q < 0 then "-$" else "$") ++ groupDigits n

/-- `Calculator.formatValue`: `NaN` and non-finite inputs format to the
literal `"0"`; otherwise dispatch on the lower-cased format name, the
`number` branch being the default. -/
def formatValue (v : JNum) (format : Option String) : String :=
  match v with
  | .nan => "0"
  | .inf => "0"
  | .ninf => "0"
  | .fin q =>
    match format.map strToLower with
    | some "currency" => formatCurrency q
    | some "percent" => toFixed1 q ++ "%"
    | _ => formatNumberBranch q

/-! ## AIService (`backend/services/aiService.js`) -/

/-- Is `c` a regex word character (`\w` = `[A-Za-z0-9_]`)? -/
def isWordChar (c : Char) : Bool :=
  ('a' ≤ c ∧ c ≤ 'z') ∨ ('A' ≤ c ∧ c ≤ 'Z') ∨ isDigitChar c ∨ c = '_'

/-- Uppercase every word character standing at a word boundary
(`.replace(/\b\w/g, l => l.toUpperCase())`); `prevW` tracks whether the
previous character was a word character. -/
def upWordStarts (prevW : Bool) : List Char → List Char
  | [] => []
  | c :: rest =>
    (if ¬ prevW ∧ isWordChar c then c.toUpper else c) :: upWordStarts (isWordChar c) rest

/-- `formatColumnName`: replace `_`/`-` with spaces, then capitalise word
starts. -/
def formatColumnName (name : String) : String :=
  String.mk (upWordStarts false
    (name.toList.map (fun c => if c = '_' ∨ c = '-' then ' ' else c)))

/-- Does `hay` start with `needle`? -/
def leadMatch : List Char → List Char → Bool
  | [], _ => true
  | _ :: _, [] => false
  | a :: as, b :: bs => a = b && leadMatch as bs

/-- `hay.includes(needle)`: substring containment. -/
def hasSub (needle hay : List Char) : Bool :=
  match hay with
  | [] => needle.isEmpty
  | _ :: t => leadMatch needle hay || hasSub needle t

/-- `String.prototype.includes` on strings. -/
def strIncludes (hay needle : String) : Bool := hasSub needle.toList hay.toList

/-- `guessNumberFormat`: guess a KPI format from column-name substrings. -/
def guessNumberFormat (columnName : String) : String :=
  let n := strToLower columnName
  if strIncludes n "revenue" ∨ strIncludes n "sales" ∨ strIncludes n "price" ∨
      strIncludes n "cost" then "currency"
  else if strIncludes n "percent" ∨ strIncludes n "rate" ∨ strIncludes n "%" then
    "percent"
  else "number"

/-- An externally-sourced candidate KPI.  A missing or empty `name`/`column`
is modelled by `""` (both are falsy to the `kpi.name && kpi.column` test);
`""` in `calculation`/`format` models an absent field, which the `||`
defaulting replaces. -/
structure CandidateKpi where
  name : String
  column : String
  calculation : String
  format : String
deriving DecidableEq, Repr

/-- An externally-sourced candidate chart; `none` lists model missing
fields (a present-but-empty array is truthy in JavaScript, hence
`some []`). -/
structure CandidateChart where
  title : String
  ctype : String
  measures : Option (List String)
  dimensions : Option (List String)
deriving DecidableEq, Repr

/-- A parsed candidate suggestion payload (`kpis`/`charts`/`insights`
top-level keys, each possibly missing). -/
structure CandidateSuggestions where
  kpis : Option (List CandidateKpi)
  charts : Option (List CandidateChart)
  insights : Option (List String)
deriving DecidableEq, Repr

/-- A validated KPI definition. -/
structure Kpi where
  name : String
  calculation : String
  column : String
  format : String
deriving DecidableEq, Repr

/-- A validated chart definition. -/
structure Chart where
  title : String
  ctype : String
  measures : List String
  dimensions : List String
deriving DecidableEq, Repr

/-- A validated suggestion set. -/
structure Suggestions where
  kpis : List Kpi
  charts : List Chart
  insights : List String
deriving DecidableEq, Repr

/-- Decimal rendering of a natural number. -/
def natToString (n : Nat) : String := String.mk (natDigits n)

/-- `AIService.getFallbackSuggestions`: the deterministic schema-driven
suggestion generator. -/
def getFallbackSuggestions (schema : Schema) : Suggestions :=
  let measureKpis : List Kpi := (schema.measures.take 4).map (fun m =>
    { name := "Total " ++ formatColumnName m.name
      calculation := "sum"
      column := m.name
      format := guessNumberFormat m.name })
  let kpis : List Kpi :=
    if schema.columns.length > 0 then
      { name := "Total Records", calculation := "count", column := "*",
        format := "number" } :: measureKpis
    else measureKpis
  let charts : List Chart :=
    match schema.measures, schema.dimensions with
    | pm :: restMeasures, pd :: _ =>
      [{ title := formatColumnName pm.name ++ " by " ++ formatColumnName pd.name,
         ctype := "bar", measures := [pm.name], dimensions := [pd.name] }] ++
      (if restMeasures.length > 0 then
        [{ title := formatColumnName pm.name ++ " Trend", ctype := "line",
           measures := [pm.name], dimensions := [pd.name] }]
       else []) ++
      (if pd.uniqueValues ≤ 10 then
        [{ title := formatColumnName pm.name ++ " Distribution", ctype := "pie",
           measures := [pm.name], dimensions := [pd.name] }]
       else []) ++
      (match schema.dimensions.find? (fun d => d.type = DType.date) with
       | some td =>
         [{ title := formatColumnName pm.name ++ " Over Time", ctype := "area",
            measures := [pm.name], dimensions := [td.name] }]
       | none => [])
    | _, _ => []
  { kpis := kpis.take 4
    charts := charts.take 4
    insights :=
      ["Dashboard generated using smart defaults",
       "Customize by selecting different measures and dimensions",
       "Found " ++ natToString schema.measures.length ++ " numeric columns and " ++
         natToString schema.dimensions.length ++ " categorical columns"] }

/-- The per-item KPI validation of `validateSuggestions`. -/
def validKpis (c : CandidateSuggestions) (schema : Schema) : List Kpi :=
  match c.kpis with
  | none => []
  | some ks => ks.filterMap (fun k =>
      if k.name ≠ "" ∧ k.column ≠ "" ∧
          ((schema.measures.any (fun m => m.name = k.column)) ∨ k.column = "*") then
        some { name := k.name
               calculation := if k.calculation = "" then "sum" else k.calculation
               column := k.column
               format := if k.format = "" then "number" else k.format }
      else none)

/-- The per-item chart validation of `validateSuggestions`: unrecognized
measure/dimension names are dropped; the chart survives only if a valid
measure and a valid dimension remain. -/
def validCharts (c : CandidateSuggestions) (schema : Schema) : List Chart :=
  match c.charts with
  | none => []
  | some cs => cs.filterMap (fun ch =>
      match ch.measures, ch.dimensions with
      | some ms, some ds =>
        if ch.title ≠ "" ∧ ch.ctype ≠ "" then
          if ms.filter (fun m => schema.measures.any (fun mm => mm.name = m)) ≠ [] ∧
              ds.filter (fun d => schema.dimensions.any (fun dd => dd.name = d)) ≠ [] then
            some { title := ch.title, ctype := ch.ctype,
                   measures := ms.filter (fun m => schema.measures.any (fun mm => mm.name = m)),
                   dimensions := ds.filter (fun d => schema.dimensions.any (fun dd => dd.name = d)) }
          else none
        else none
      | _, _ => none)

/-- `AIService.validateSuggestions`: validate each item; if either accepted
list ends up empty, the whole candidate set is replaced by the fallback
output. -/
def validateSuggestions (c : CandidateSuggestions) (schema : Schema) : Suggestions :=
  let vk := validKpis c schema
  let vc := validCharts c schema
  if vk = [] ∨ vc = [] then getFallbackSuggestions schema
  else { kpis := vk, charts := vc, insights := c.insights.getD [] }

/-- UTF-8 encoding of one character (what `Buffer.from(key)` produces per
code point). -/
def utf8Bytes (c : Char) : List Nat :=
  let n := c.toNat
  if n < 128 then [n]
  else if n < 2048 then [192 + n / 64, 128 + n % 64]
  else if n < 65536 then [224 + n / 4096, 128 + n / 64 % 64, 128 + n % 64]
  else [240 + n / 262144, 128 + n / 4096 % 64, 128 + n / 64 % 64, 128 + n % 64]

/-- UTF-8 bytes of a string. -/
def strBytes (s : String) : List Nat := (s.toList.map utf8Bytes).flatten

/-- The standard Base64 alphabet character for a 6-bit value. -/
def b64Char (n : Nat) : Char :=
  "ABCDEFGHIJKLMNOPQRSTUVWXYZabcdefghijklmnopqrstuvwxyz0123456789+/".toList.getD n 'A'

/-- Standard Base64 encoding (with `=` padding) of a byte list, as
`Buffer.prototype.toString('base64')`. -/
def b64Chunks : List Nat → List Char
  | [] => []
  | [b1] => [b64Char (b1 / 4), b64Char (b1 % 4 * 16), '=', '=']
  | [b1, b2] => [b64Char (b1 / 4), b64Char (b1 % 4 * 16 + b2 / 16),
                 b64Char (b2 % 16 * 4), '=']
  | b1 :: b2 :: b3 :: rest =>
    [b64Char (b1 / 4), b64Char (b1 % 4 * 16 + b2 / 16),
     b64Char (b2 % 16 * 4 + b3 / 64), b64Char (b3 % 64)] ++ b64Chunks rest

/-- Name of a column type as it appears in the cache key. -/
def typeName : DType → String
  | .number => "number"
  | .date => "date"
  | .strT => "string"

/-- The `|`-joined `name:type` descriptor string the cache key digests. -/
def cacheKeySource (schema : Schema) : String :=
  String.intercalate "|" (schema.columns.map (fun c => c.name ++ ":" ++ typeName c.type))

/-- `AIService.generateCacheKey`: Base64 of the `|`-joined `name:type`
descriptors, truncated to 20 characters. -/
def generateCacheKey (schema : Schema) : String :=
  String.mk ((b64Chunks (strBytes (cacheKeySource schema))).take 20)

/-- Outcome of the external suggestion request, as observed by
`getAISuggestions`: the key may be missing, the HTTP round trip may fail or
return non-2xx, the payload may carry no content, the content may hold no
parsable JSON, or a candidate payload is decoded. -/
inductive AIOutcome where
  | noKey
  | requestError
  | noContent
  | unparsable
  | parsed (c : CandidateSuggestions)

/-- `AIService.getAISuggestions` composed with `parseAIResponse`: the first
three outcomes throw; an unparsable payload is caught inside
`parseAIResponse`, which already answers with the fallback; a parsed
payload is validated. -/
def getAISuggestions (schema : Schema) : AIOutcome → Except String Suggestions
  | .noKey => .error "AI API key not configured"
  | .requestError => .error "AI API error"
  | .noContent => .error "No AI response received"
  | .unparsable => .ok (getFallbackSuggestions schema)
  | .parsed c => .ok (validateSuggestions c schema)

/-- The suggestion cache (`this.cache`), keyed by schema fingerprint. -/
def Cache := List (String × Suggestions)

/-- `AIService.getSuggestions`: return the cached set on a fingerprint hit;
otherwise try the external request, absorb any failure into the fallback,
and cache the result. -/
def getSuggestions (cache : Cache) (schema : Schema) (outcome : AIOutcome) :
    Suggestions × Cache :=
  let key := generateCacheKey schema
  match List.lookup key cache with
  | some s => (s, cache)
  | none =>
    let s :=
      match getAISuggestions schema outcome with
      | .ok s => s
      | .error _ => getFallbackSuggestions schema
    (s, (key, s) :: cache)

/-- Structural validity of a suggestion set against a schema: every KPI
column is `"*"` or an existing measure name, and every chart carries
non-empty measure and dimension lists drawn from the schema. -/
def wellFormed (schema : Schema) (s : Suggestions) : Prop :=
  (∀ kpi ∈ s.kpis, kpi.column = "*" ∨ ∃ m ∈ schema.measures, m.name = kpi.column) ∧
  (∀ ch ∈ s.charts,
    ch.measures ≠ [] ∧ ch.dimensions ≠ [] ∧
    (∀ m ∈ ch.measures, ∃ mm ∈ schema.measures, mm.name = m) ∧
    (∀ d ∈ ch.dimensions, ∃ dd ∈ schema.dimensions, dd.name = d))

/-- The group key of a row for a dimension (`row[dimension] || 'Unknown'`). -/
def groupKeyOf (dim : String) (r : Row) : String := jsGroupKey (rowGet r dim)

/-! ## Helper lemmas: grouping -/

theorem lookup_cons' {β : Type} (k k' : String) (v : β) (rest : List (String × β)) :
    List.lookup k ((k', v) :: rest) = if k = k' then some v else List.lookup k rest := by
  by_cases h : k = k'
  · subst h; simp [List.lookup]
  · have hb : (k == k') = false := by simp [h]
    simp [List.lookup, hb, h]

theorem lookup_addToGroup (groups : List (String × List Row)) (k' : String) (r : Row)
    (k : String) :
    List.lookup k (addToGroup groups k' r) =
      if k = k' then some ((List.lookup k groups).getD [] ++ [r])
      else List.lookup k groups := by
  induction groups with
  | nil =>
    by_cases h : k = k' <;> simp [addToGroup, lookup_cons', h]
  | cons p rest ih =>
    obtain ⟨k'', g⟩ := p
    by_cases h1 : k'' = k'
    · subst h1
      by_cases h2 : k = k'' <;> simp [addToGroup, lookup_cons', h2]
    · by_cases h2 : k = k''
      · subst h2
        simp [addToGroup, lookup_cons', h1, Ne.symm h1]
      · simp [addToGroup, lookup_cons', h1, h2, ih]

theorem lookup_groupFold (dim : String) (data : List Row) :
    ∀ (acc : List (String × List Row)) (k : String),
    List.lookup k (data.foldl (fun groups r => addToGroup groups (jsGroupKey (rowGet r dim)) r) acc) =
      match List.lookup k acc with
      | some g => some (g ++ data.filter (fun r => groupKeyOf dim r = k))
      | none =>
        if data.any (fun r => groupKeyOf dim r = k) then
          some (data.filter (fun r => groupKeyOf dim r = k))
        else none := by
  induction data with
  | nil =>
    intro acc k
    cases h : List.lookup k acc <;> simp [h]
  | cons r rest ih =>
    intro acc k
    simp only [List.foldl_cons]
    rw [ih]
    rw [lookup_addToGroup]
    by_cases hk : k = jsGroupKey (rowGet r dim)
    · subst hk
      cases h : List.lookup (jsGroupKey (rowGet r dim)) acc <;>
        simp [h, List.filter_cons, groupKeyOf]
    · have hk' : ¬ (jsGroupKey (rowGet r dim) = k) := fun e => hk e.symm
      cases h : List.lookup k acc <;>
        simp [hk, h, List.filter_cons, groupKeyOf, hk']

theorem lookup_groupByDimension (data : List Row) (dim k : String) :
    List.lookup k (groupByDimension data dim) =
      if data.any (fun r => groupKeyOf dim r = k) then
        some (data.filter (fun r => groupKeyOf dim r = k))
      else none := by
  have h := lookup_groupFold dim data [] k
  simpa [groupByDimension] using h

theorem keys_addToGroup (groups : List (String × List Row)) (k : String) (r : Row) :
    (addToGroup groups k r).map Prod.fst =
      if k ∈ groups.map Prod.fst then groups.map Prod.fst
      else groups.map Prod.fst ++ [k] := by
  induction groups with
  | nil => simp [addToGroup]
  | cons p rest ih =>
    obtain ⟨k', g⟩ := p
    by_cases h : k' = k
    · subst h; simp [addToGroup]
    · have h' : ¬ (k = k') := fun e => h e.symm
      by_cases hm : k ∈ rest.map Prod.fst <;> simp [addToGroup, h, h', hm, ih]

theorem nodup_keys_addToGroup (groups : List (String × List Row)) (k : String) (r : Row)
    (h : (groups.map Prod.fst).Nodup) :
    ((addToGroup groups k r).map Prod.fst).Nodup := by
  rw [keys_addToGroup]
  by_cases hm : k ∈ groups.map Prod.fst
  · simpa [hm] using h
  · simpa [hm, List.nodup_append] using h

theorem nodup_keys_groupFold (dim : String) (data : List Row) :
    ∀ (acc : List (String × List Row)), (acc.map Prod.fst).Nodup →
    ((data.foldl (fun groups r => addToGroup groups (jsGroupKey (rowGet r dim)) r) acc).map
      Prod.fst).Nodup := by
  induction data with
  | nil => intro acc h; simpa using h
  | cons r rest ih =>
    intro acc h
    simp only [List.foldl_cons]
    exact ih _ (nodup_keys_addToGroup _ _ _ h)

theorem nodup_keys_groupByDimension (data : List Row) (dim : String) :
    ((groupByDimension data dim).map Prod.fst).Nodup :=
  nodup_keys_groupFold dim data [] (by simp)

theorem lookup_eq_some_iff_mem {β : Type} (l : List (String × β))
    (hnd : (l.map Prod.fst).Nodup) (k : String) (v : β) :
    List.lookup k l = some v ↔ (k, v) ∈ l := by
  induction l with
  | nil => simp [List.lookup]
  | cons p rest ih =>
    obtain ⟨k', v'⟩ := p
    simp only [List.map_cons, List.nodup_cons] at hnd
    by_cases h : k = k'
    · subst h
      rw [lookup_cons']
      simp only [if_pos rfl, List.mem_cons]
      constructor
      · rintro h; cases h; simp
      · rintro (h | h)
        · cases h; rfl
        · exact absurd (List.mem_map_of_mem Prod.fst h) hnd.1
    · rw [lookup_cons']
      rw [if_neg h]
      rw [ih hnd.2]
      simp only [List.mem_cons]
      constructor
      · exact Or.inr
      · rintro (e | h)
        · cases e; exact absurd rfl h
        · exact h

theorem dpVal_mkDataPoint (dim k : String) (group : List Row) (measures : List String)
    (agg : List Row → String → ℚ) (m : String) (hm : m ∈ measures) :
    dpVal (mkDataPoint dim k group measures agg) m = agg group m := by
  induction measures with
  | nil => cases hm
  | cons m' rest ih =>
    by_cases he : m = m'
    · subst he
      simp [dpVal, mkDataPoint, lookup_cons']
    · have h' : m ∈ rest := by
        rcases List.mem_cons.mp hm with h | h
        · exact absurd h he
        · exact h
      have := ih h'
      simpa [dpVal, mkDataPoint, lookup_cons', he] using this

/-! ## Helper lemmas: sorting -/

theorem merge_congr {α : Type} {le le' : α → α → Bool} :
    ∀ (xs ys : List α), (∀ a ∈ xs, ∀ b ∈ ys, le a b = le' a b) →
    List.merge xs ys le = List.merge xs ys le'
  | [], ys, _ => by simp
  | x :: xs, [], _ => by simp
  | x :: xs, y :: ys, h => by
    simp only [List.merge]
    rw [← h x (by simp) y (by simp)]
    by_cases hxy : le x y
    · simp only [hxy, if_true]
      rw [merge_congr xs (y :: ys) (fun a ha b hb => h a (List.mem_cons_of_mem _ ha) b hb)]
    · have hxy' : le x y = false := by simpa using hxy
      simp only [hxy', Bool.false_eq_true, if_false]
      rw [merge_congr (x :: xs) ys (fun a ha b hb => h a ha b (List.mem_cons_of_mem _ hb))]

theorem mergeSort_congr {α : Type} (le le' : α → α → Bool) :
    ∀ (l : List α), (∀ a ∈ l, ∀ b ∈ l, le a b = le' a b) →
    List.mergeSort l le = List.mergeSort l le'
  | [], _ => by simp
  | [a], _ => by simp
  | a :: b :: xs, h => by
    rw [List.mergeSort, List.mergeSort]
    have hl1 : (List.splitInTwo ⟨a :: b :: xs, rfl⟩).1.1.length < xs.length + 1 + 1 := by
      simp [List.splitInTwo_fst]; omega
    have hl2 : (List.splitInTwo ⟨a :: b :: xs, rfl⟩).2.1.length < xs.length + 1 + 1 := by
      simp [List.splitInTwo_snd]; omega
    have hsub1 : ∀ x ∈ (List.splitInTwo ⟨a :: b :: xs, rfl⟩).1.1, x ∈ a :: b :: xs := by
      intro x hx
      rw [List.splitInTwo_fst] at hx
      exact List.mem_of_mem_take hx
    have hsub2 : ∀ x ∈ (List.splitInTwo ⟨a :: b :: xs, rfl⟩).2.1, x ∈ a :: b :: xs := by
      intro x hx
      rw [List.splitInTwo_snd] at hx
      exact List.mem_of_mem_drop hx
    have e1 := mergeSort_congr le le' (List.splitInTwo ⟨a :: b :: xs, rfl⟩).1.1
      (fun x hx y hy => h x (hsub1 x hx) y (hsub1 y hy))
    have e2 := mergeSort_congr le le' (List.splitInTwo ⟨a :: b :: xs, rfl⟩).2.1
      (fun x hx y hy => h x (hsub2 x hx) y (hsub2 y hy))
    rw [← e1, ← e2]
    exact merge_congr _ _ (fun x hx y hy =>
      h x (hsub1 x (List.mem_mergeSort.mp hx)) y (hsub2 y (List.mem_mergeSort.mp hy)))
termination_by l => l.length

theorem sorted_mergeSort_key {α β : Type} [LinearOrder β] (f : α → β) (l : List α) :
    (l.mergeSort (fun a b => decide (f a ≤ f b))).Pairwise (fun a b => f a ≤ f b) := by
  have h := @List.sorted_mergeSort _ (fun a b => decide (f a ≤ f b))
    (fun a b c hab hbc => by
      simp only [decide_eq_true_eq] at *
      exact le_trans hab hbc)
    (fun a b => by simpa using le_total (f a) (f b)) l
  exact h.imp (fun hab => by simpa using hab)

theorem sorted_mergeSort_key_desc {α β : Type} [LinearOrder β] (f : α → β) (l : List α) :
    (l.mergeSort (fun a b => decide (f b ≤ f a))).Pairwise (fun a b => f b ≤ f a) := by
  have h := @List.sorted_mergeSort _ (fun a b => decide (f b ≤ f a))
    (fun a b c hab hbc => by
      simp only [decide_eq_true_eq] at *
      exact le_trans hbc hab)
    (fun a b => by simpa using le_total (f b) (f a)) l
  exact h.imp (fun hab => by simpa using hab)

/-! ## C1 — schema measure/dimension partition -/

/-- C1: for every non-empty row set, the inferred schema's measures and
dimensions partition its columns — no overlap, no omission — and a column
is a measure exactly when its type is `number` and its distinct non-null
value count is strictly greater than 5; otherwise it is a dimension. -/
theorem generateSchema_partitions (data : List Row) (_h : data ≠ []) :
    List.Perm
      ((generateSchema data).measures ++ (generateSchema data).dimensions)
      (generateSchema data).columns ∧
    ∀ ci ∈ (generateSchema data).columns,
      (ci ∈ (generateSchema data).measures ↔
        (ci.type = DType.number ∧ ci.uniqueValues > 5)) ∧
      (ci ∈ (generateSchema data).dimensions ↔
        ¬ (ci.type = DType.number ∧ ci.uniqueValues > 5)) := by
  constructor
  · simpa [generateSchema] using
      List.filter_append_perm isMeasure ((headKeys data).map (mkColumnInfo data))
  · intro ci hci
    have hci' : ci ∈ (headKeys data).map (mkColumnInfo data) := by
      simpa [generateSchema] using hci
    constructor
    · simp [generateSchema, List.mem_filter, hci', isMeasure]
    · simp only [generateSchema, List.mem_filter, hci', isMeasure, true_and,
        Bool.not_eq_true, Bool.not_eq_true', decide_eq_false_iff_not, decide_eq_true_eq]

/-- Witness for C1 at a concrete three-row data set. -/
theorem generateSchema_partitions_witness :
    List.Perm
      ((generateSchema
        [[("region", JSVal.str "East"), ("revenue", JSVal.num 100)],
         [("region", JSVal.str "West"), ("revenue", JSVal.num 300)],
         [("region", JSVal.str "East"), ("revenue", JSVal.num 50)]]).measures ++
      (generateSchema
        [[("region", JSVal.str "East"), ("revenue", JSVal.num 100)],
         [("region", JSVal.str "West"), ("revenue", JSVal.num 300)],
         [("region", JSVal.str "East"), ("revenue", JSVal.num 50)]]).dimensions)
      (generateSchema
        [[("region", JSVal.str "East"), ("revenue", JSVal.num 100)],
         [("region", JSVal.str "West"), ("revenue", JSVal.num 300)],
         [("region", JSVal.str "East"), ("revenue", JSVal.num 50)]]).columns :=
  (generateSchema_partitions _ (by decide)).1

end Dashboard

namespace Dashboard

/-! ## C6 — 80% dominant-type inference -/

theorem numberCount_cons (v : JSVal) (rest : List JSVal) :
    numberCount (v :: rest) = (if isNumberVal v then 1 else 0) + numberCount rest := by
  by_cases h : isNumberVal v <;> simp [numberCount, List.filter_cons, h, Nat.add_comm]

theorem dateCount_cons (v : JSVal) (rest : List JSVal) :
    dateCount (v :: rest) = (if isDateVal v then 1 else 0) + dateCount rest := by
  by_cases h : isDateVal v <;> simp [dateCount, List.filter_cons, h, Nat.add_comm]

theorem numberCount_add_dateCount_le (values : List JSVal) :
    numberCount values + dateCount values ≤ values.length := by
  induction values with
  | nil => simp [numberCount, dateCount]
  | cons v rest ih =>
    rw [numberCount_cons, dateCount_cons]
    cases v with
    | num q => simp [isNumberVal, isDateVal]; omega
    | nan => simp [isNumberVal, isDateVal]; omega
    | str s =>
      by_cases hd : isDateString s <;>
        simp [isNumberVal, isDateVal, hd] <;> omega
    | bool b => simp [isNumberVal, isDateVal]; omega
    | null => simp [isNumberVal, isDateVal]; omega
    | undefined => simp [isNumberVal, isDateVal]; omega

/-- C6: for every column with at least one non-null value, the inferred type
is `number` exactly when strictly more than 80% of the values are numeric,
`date` exactly when strictly more than 80% match the `YYYY-MM-DD` pattern,
and `string` otherwise; the 80% boundary is strict, so exactly 80% numeric
is not classified `number`. -/
theorem inferDataType_spec (values : List JSVal) (h : values ≠ []) :
    (inferDataType values = DType.number ↔
      5 * numberCount values > 4 * values.length) ∧
    (inferDataType values = DType.date ↔
      5 * dateCount values > 4 * values.length) ∧
    (inferDataType values = DType.strT ↔
      (¬ 5 * numberCount values > 4 * values.length ∧
       ¬ 5 * dateCount values > 4 * values.length)) := by
  have hlen : values.length ≠ 0 := by
    simpa [List.length_eq_zero] using h
  have hdisj := numberCount_add_dateCount_le values
  have hexcl : ¬ (5 * numberCount values > 4 * values.length ∧
      5 * dateCount values > 4 * values.length) := by
    rintro ⟨h1, h2⟩
    omega
  unfold inferDataType
  by_cases hn : 5 * numberCount values > 4 * values.length
  · simp [hlen, hn]
    omega
  · by_cases hd : 5 * dateCount values > 4 * values.length <;>
      simp [hlen, hn, hd]

/-- Witness for C6: a five-value column with exactly four numbers (80%) is
classified `string`, not `number`; six out of seven (>80%) is `number`. -/
theorem inferDataType_spec_witness :
    inferDataType [JSVal.num 1, JSVal.num 2, JSVal.num 3, JSVal.num 4,
      JSVal.str "x"] = DType.strT ∧
    inferDataType [JSVal.num 1, JSVal.num 2, JSVal.num 3, JSVal.num 4,
      JSVal.num 5, JSVal.num 6, JSVal.str "x"] = DType.number := by
  constructor
  · exact (inferDataType_spec _ (by decide)).2.2.mpr (by decide)
  · exact (inferDataType_spec _ (by decide)).1.mpr (by decide)

end Dashboard

namespace Dashboard

/-! ## C8 — formatValue -/

/-- C8: `formatValue` maps `NaN` and non-finite inputs to the literal
`"0"` for every format; under format `number` it renders values at or above
one million as the value divided by 1,000,000 with one decimal and an `"M"`
suffix, values at or above one thousand as the value divided by 1,000 with
one decimal and a `"K"` suffix, and smaller values as a locale-grouped
string; in particular `formatValue(1500000, "number") = "1.5M"` and
`formatValue(2500, "number") = "2.5K"`. -/
theorem formatValue_spec :
    (∀ f, formatValue JNum.nan f = "0" ∧ formatValue JNum.inf f = "0" ∧
      formatValue JNum.ninf f = "0") ∧
    (∀ q : ℚ, 1000000 ≤ q →
      formatValue (JNum.fin q) (some "number") = toFixed1 (q / 1000000) ++ "M") ∧
    (∀ q : ℚ, 1000 ≤ q → q < 1000000 →
      formatValue (JNum.fin q) (some "number") = toFixed1 (q / 1000) ++ "K") ∧
    (∀ q : ℚ, q < 1000 →
      formatValue (JNum.fin q) (some "number") = toLocaleStr q) ∧
    formatValue (JNum.fin 1500000) (some "number") = "1.5M" ∧
    formatValue (JNum.fin 2500) (some "number") = "2.5K" := by
  refine ⟨fun f => ⟨rfl, rfl, rfl⟩, ?_, ?_, ?_, ?_, ?_⟩
  · intro q h
    show formatNumberBranch q = _
    rw [formatNumberBranch, if_pos (show q ≥ 1000000 from h)]
  · intro q h1 h2
    show formatNumberBranch q = _
    rw [formatNumberBranch, if_neg (not_le.mpr h2), if_pos (show q ≥ 1000 from h1)]
  · intro q h
    show formatNumberBranch q = _
    have h' : q < 1000000 := lt_trans h (by norm_num)
    rw [formatNumberBranch, if_neg (not_le.mpr h'), if_neg (not_le.mpr h)]
  · show formatNumberBranch 1500000 = _
    rw [formatNumberBranch, if_pos (by norm_num),
      show (1500000 : ℚ) / 1000000 = mkRat 3 2 by rw [Rat.mkRat_eq_div]; norm_num]
    decide
  · show formatNumberBranch 2500 = _
    rw [formatNumberBranch,
      if_neg (by norm_num), if_pos (by norm_num),
      show (2500 : ℚ) / 1000 = mkRat 5 2 by rw [Rat.mkRat_eq_div]; norm_num]
    decide

/-- Witness for C8, applying the general branches at 1,500,000 and 2,500 and
the non-finite branch at `NaN`. -/
theorem formatValue_spec_witness :
    formatValue (JNum.fin 1500000) (some "number") =
      toFixed1 ((1500000 : ℚ) / 1000000) ++ "M" ∧
    formatValue (JNum.fin 2500) (some "number") =
      toFixed1 ((2500 : ℚ) / 1000) ++ "K" ∧
    formatValue JNum.nan (some "currency") = "0" :=
  ⟨formatValue_spec.2.1 1500000 (by norm_num),
   formatValue_spec.2.2.1 2500 (by norm_num) (by norm_num),
   (formatValue_spec.1 (some "currency")).1⟩

/-! ## C9 — falsy dimension cells group as "Unknown" -/

/-- C9: grouping by a dimension sends every row whose cell is falsy —
missing, `null`, `undefined`, `0`, `""`, `false` or `NaN` — to the group
with literal key `"Unknown"`, and every row with a truthy cell to the group
keyed by that value's string form; each group holds exactly the rows whose
key matches, in input order. -/
theorem groupByDimension_falsy_unknown (data : List Row) (dim k : String) :
    (List.lookup k (groupByDimension data dim) =
      if data.any (fun r => groupKeyOf dim r = k) then
        some (data.filter (fun r => groupKeyOf dim r = k))
      else none) ∧
    (∀ v : JSVal, v.truthy = false → jsGroupKey v = "Unknown") ∧
    (∀ v : JSVal, v.truthy = true → jsGroupKey v = v.toStr) ∧
    jsGroupKey (JSVal.num 0) = "Unknown" ∧
    jsGroupKey (JSVal.str "") = "Unknown" ∧
    jsGroupKey (JSVal.bool false) = "Unknown" ∧
    jsGroupKey JSVal.nan = "Unknown" ∧
    jsGroupKey JSVal.null = "Unknown" ∧
    jsGroupKey JSVal.undefined = "Unknown" := by
  refine ⟨lookup_groupByDimension data dim k, ?_, ?_, by decide, by decide, by decide,
    by decide, by decide, by decide⟩
  · intro v hv; simp [jsGroupKey, hv]
  · intro v hv; simp [jsGroupKey, hv]

/-- Witness for C9 at a concrete mixed data set: the zero, empty-string and
missing cells land in the `"Unknown"` group, the truthy cell in its own. -/
theorem groupByDimension_falsy_unknown_witness :
    List.lookup "Unknown"
      (groupByDimension
        [[("g", JSVal.num 0), ("m", JSVal.num 1)],
         [("g", JSVal.str ""), ("m", JSVal.num 2)],
         [("m", JSVal.num 3)],
         [("g", JSVal.str "a"), ("m", JSVal.num 4)]] "g") =
      some [[("g", JSVal.num 0), ("m", JSVal.num 1)],
            [("g", JSVal.str ""), ("m", JSVal.num 2)],
            [("m", JSVal.num 3)]] := by
  have h := (groupByDimension_falsy_unknown
    [[("g", JSVal.num 0), ("m", JSVal.num 1)],
     [("g", JSVal.str ""), ("m", JSVal.num 2)],
     [("m", JSVal.num 3)],
     [("g", JSVal.str "a"), ("m", JSVal.num 4)]] "g" "Unknown").1
  rw [h]
  decide

end Dashboard

namespace Dashboard

/-! ## C2 — per-group aggregation (sum vs scatter average) -/

theorem rowGet_nil (k : String) : rowGet [] k = JSVal.undefined := rfl

theorem rowGet_cons (k k' : String) (v : JSVal) (rest : List (String × JSVal)) :
    rowGet ((k', v) :: rest) k = if k = k' then v else rowGet rest k := by
  by_cases h : k = k' <;> simp [rowGet, lookup_cons', h]

theorem mem_sortChartData (l : List DataPoint) (pm t : String) (dp : DataPoint) :
    dp ∈ sortChartData l pm t ↔ dp ∈ l := by
  unfold sortChartData
  by_cases h : t = "line" ∨ t = "area" <;> simp [h]

theorem mem_sortCustomChartData (l : List DataPoint) (pm t dim : String) (dp : DataPoint) :
    dp ∈ sortCustomChartData l pm t dim ↔ dp ∈ l := by
  unfold sortCustomChartData
  by_cases h : t = "line" ∨ t = "area" <;> simp [h]

theorem mem_chartData_iff (data : List Row) (dim : String) (measures : List String)
    (agg : List Row → String → ℚ) (dp : DataPoint) :
    dp ∈ (groupByDimension data dim).map (fun p => mkDataPoint dim p.1 p.2 measures agg) ↔
      ∃ k, dp = mkDataPoint dim k (data.filter (fun r => groupKeyOf dim r = k)) measures agg ∧
        data.any (fun r => groupKeyOf dim r = k) := by
  simp only [List.mem_map]
  constructor
  · rintro ⟨⟨k, g⟩, hmem, rfl⟩
    have hl : List.lookup k (groupByDimension data dim) = some g :=
      (lookup_eq_some_iff_mem _ (nodup_keys_groupByDimension data dim) k g).mpr hmem
    rw [lookup_groupByDimension] at hl
    by_cases hany : data.any (fun r => groupKeyOf dim r = k)
    · rw [if_pos hany] at hl
      exact ⟨k, by rw [← Option.some_inj.mp hl], hany⟩
    · rw [if_neg hany] at hl
      cases hl
  · rintro ⟨k, rfl, hany⟩
    refine ⟨(k, data.filter (fun r => groupKeyOf dim r = k)), ?_, rfl⟩
    apply (lookup_eq_some_iff_mem _ (nodup_keys_groupByDimension data dim) _ _).mp
    rw [lookup_groupByDimension, if_pos hany]

/-- C2 (amended): grouping partitions the rows by the primary dimension's
(falsy-defaulted) value, and within each group every measure is aggregated
from the parsed cell values; on the custom-combination path
(`prepareCustomChartData`) the aggregate is the per-group average when the
chart type is `scatter` and the sum otherwise, while the standard path
(`prepareChartData`) always sums, for every chart type including
`scatter`. -/
theorem chartData_aggregation (data : List Row) (measures dims : List String)
    (t m k : String) (hm : m ∈ measures) (hd : dims ≠ []) :
    ∃ out, prepareCustomChartData data measures dims t = some out ∧
      (∀ dp ∈ out, dp.dimValue = k →
        dpVal dp m =
          (if t = "scatter" then aggAvg else aggSum)
            (data.filter (fun r => groupKeyOf (dims.headD "") r = k)) m) ∧
      ((∃ dp ∈ out, dp.dimValue = k) ↔
        data.any (fun r => groupKeyOf (dims.headD "") r = k)) ∧
      (∀ dp ∈ prepareChartData data ⟨t, measures, dims⟩, dp.dimValue = k →
        dpVal dp m =
          aggSum (data.filter (fun r => groupKeyOf (dims.headD "") r = k)) m) := by
  have hm' : measures.isEmpty = false := by
    cases measures with
    | nil => cases hm
    | cons a l => simp
  have hd' : dims.isEmpty = false := by
    cases dims with
    | nil => exact absurd rfl hd
    | cons a l => simp
  have hout : prepareCustomChartData data measures dims t =
      some (sortCustomChartData
        ((groupByDimension data (dims.headD "")).map
          (fun p => mkDataPoint (dims.headD "") p.1 p.2 measures
            (if t = "scatter" then aggAvg else aggSum)))
        (measures.headD "") t (dims.headD "")) := by
    rw [prepareCustomChartData, if_neg (by simp [hm', hd'])]
  refine ⟨_, hout, ?_, ?_, ?_⟩
  · intro dp hdp hdv
    rw [mem_sortCustomChartData] at hdp
    rw [mem_chartData_iff] at hdp
    obtain ⟨k', rfl, hany⟩ := hdp
    have hk : k' = k := hdv
    subst hk
    exact dpVal_mkDataPoint _ _ _ _ _ _ hm
  · constructor
    · rintro ⟨dp, hdp, hdv⟩
      rw [mem_sortCustomChartData, mem_chartData_iff] at hdp
      obtain ⟨k', rfl, hany⟩ := hdp
      have hk : k' = k := hdv
      subst hk
      exact hany
    · intro hany
      refine ⟨mkDataPoint (dims.headD "") k
        (data.filter (fun r => groupKeyOf (dims.headD "") r = k)) measures
        (if t = "scatter" then aggAvg else aggSum), ?_, rfl⟩
      rw [mem_sortCustomChartData, mem_chartData_iff]
      exact ⟨k, rfl, hany⟩
  · intro dp hdp hdv
    rw [prepareChartData] at hdp
    rw [if_neg (by simp [hm', hd'])] at hdp
    rw [mem_sortChartData, mem_chartData_iff] at hdp
    obtain ⟨k', rfl, hany⟩ := hdp
    have hk : k' = k := hdv
    subst hk
    exact dpVal_mkDataPoint _ _ _ _ _ _ hm

/-- Counterexample to C2 as stated: on the standard path
(`Calculator.prepareChartData`, which all dashboard chart generation uses)
a scatter chart is aggregated with the per-group SUM, not the per-group
average: two rows of group `"a"` with values 1 and 3 yield 4, while the
claimed average is 2. -/
theorem chartData_aggregation_counterexample :
    prepareChartData
      [[("g", JSVal.str "a"), ("m", JSVal.num 1)],
       [("g", JSVal.str "a"), ("m", JSVal.num 3)]]
      { type := "scatter", measures := ["m"], dimensions := ["g"] } =
      [{ dimName := "g", dimValue := "a", vals := [("m", 4)] }] ∧
    aggAvg
      [[("g", JSVal.str "a"), ("m", JSVal.num 1)],
       [("g", JSVal.str "a"), ("m", JSVal.num 3)]] "m" = 2 ∧
    (4 : ℚ) ≠ 2 := by
  refine ⟨?_, ?_, by norm_num⟩
  · simp [prepareChartData, sortChartData, groupByDimension, addToGroup,
      mkDataPoint, aggSum, parseNum, rowGet_cons, rowGet_nil, jsGroupKey,
      JSVal.truthy, JSVal.toStr]
    norm_num
  · have hsum : aggSum
        [[("g", JSVal.str "a"), ("m", JSVal.num 1)],
         [("g", JSVal.str "a"), ("m", JSVal.num 3)]] "m" = 4 := by
      simp [aggSum, parseNum, rowGet_cons, rowGet_nil]
      norm_num
    rw [aggAvg, if_neg (by decide), hsum]
    norm_num

/-- Witness for C2 at concrete scatter data on the custom path: the single
group `"a"` carries the average of 1 and 3. -/
theorem chartData_aggregation_witness :
    ∃ out, prepareCustomChartData
      [[("g", JSVal.str "a"), ("m", JSVal.num 1)],
       [("g", JSVal.str "a"), ("m", JSVal.num 3)]] ["m"] ["g"] "scatter" = some out ∧
      ∀ dp ∈ out, dp.dimValue = "a" → dpVal dp "m" = 2 := by
  obtain ⟨out, h1, h2, _h3, _h4⟩ := chartData_aggregation
    [[("g", JSVal.str "a"), ("m", JSVal.num 1)],
     [("g", JSVal.str "a"), ("m", JSVal.num 3)]] ["m"] ["g"] "scatter" "m" "a"
    (by decide) (by decide)
  refine ⟨out, h1, ?_⟩
  intro dp hdp hdv
  rw [h2 dp hdp hdv]
  rw [if_pos rfl]
  have hfilter : (List.filter
      (fun r => decide (groupKeyOf ((["g"] : List String).headD "") r = "a"))
      [[("g", JSVal.str "a"), ("m", JSVal.num 1)],
       [("g", JSVal.str "a"), ("m", JSVal.num 3)]]) =
      [[("g", JSVal.str "a"), ("m", JSVal.num 1)],
       [("g", JSVal.str "a"), ("m", JSVal.num 3)]] := by decide
  rw [hfilter]
  have hsum : aggSum
      [[("g", JSVal.str "a"), ("m", JSVal.num 1)],
       [("g", JSVal.str "a"), ("m", JSVal.num 3)]] "m" = 4 := by
    simp [aggSum, parseNum, rowGet_cons, rowGet_nil]
    norm_num
  rw [aggAvg, if_neg (by decide), hsum]
  norm_num

end Dashboard

namespace Dashboard

/-! ## C3 — applyFilters and the record-count limit -/

/-- C3: evaluation at the failing input.  `Calculator.applyFilters` accepts
only `(data, filters)`; the `dataLimit` third argument passed by
`backend/routes/api.js` does not exist in the signature and is ignored, so
with a limit of 1 supplied the function still returns BOTH matching rows in
input order — the first conjunct shows the full matching set is returned,
the second that its length is 2, not 1. -/
theorem applyFilters_ignores_limit :
    applyFilters
      [[("region", JSVal.str "East"), ("id", JSVal.num 1)],
       [("region", JSVal.str "West"), ("id", JSVal.num 2)],
       [("region", JSVal.str "East"), ("id", JSVal.num 3)]]
      [("region", ["East"])] =
      [[("region", JSVal.str "East"), ("id", JSVal.num 1)],
       [("region", JSVal.str "East"), ("id", JSVal.num 3)]] ∧
    (applyFilters
      [[("region", JSVal.str "East"), ("id", JSVal.num 1)],
       [("region", JSVal.str "West"), ("id", JSVal.num 2)],
       [("region", JSVal.str "East"), ("id", JSVal.num 3)]]
      [("region", ["East"])]).length = 2 := by
  constructor
  · decide
  · decide

/-! ## C7 — line/area ordering precedence -/

/-- C7 (amended): the numeric → date → string comparison precedence for
line/area ordering exists only on the custom-combination path, and the
standard path applies no such precedence.  Both sorts return a permutation
of their input.  `Calculator.sortChartData` (the standard path) compares
only the stringified found key, so on all-digit keys — where the `en`
collation, code-point order and the insertion-order key model provably
coincide with the engine — its output is in plain string order, not
numeric order.  `Calculator.sortCustomChartData` sorts ascending by the
parsed numeric value when every key compares numerically (full `Number`
coercion and `parseFloat` succeed), and ascending by date when every key
is a calendar-valid `YYYY-MM-DD` string. -/
theorem sortLineArea_spec (t : String) (ht : t = "line" ∨ t = "area") :
    (∀ (data : List DataPoint) (pm : String),
      List.Perm (sortChartData data pm t) data ∧
      ((∀ dp ∈ data,
          (∀ name ∈ dp.vals.map Prod.fst, isArrayIndexKey name = false) ∧
          (sortKeyStr dp pm).toList.all isDigitChar) →
        (sortChartData data pm t).Pairwise
          (fun a b => (sortKeyStr a pm).toList ≤ (sortKeyStr b pm).toList))) ∧
    (∀ (data : List DataPoint) (pm dim : String),
      List.Perm (sortCustomChartData data pm t dim) data ∧
      ((∀ dp ∈ data, numericKey (dpGet dp dim) = true) →
        (sortCustomChartData data pm t dim).Pairwise
          (fun a b => parseNum (dpGet a dim) ≤ parseNum (dpGet b dim))) ∧
      ((∀ dp ∈ data, jsValIsNaN (dpGet dp dim) = true ∧
          (jsDateOf (dpGet dp dim)).isSome) →
        (sortCustomChartData data pm t dim).Pairwise
          (fun a b => (jsDateOf (dpGet a dim)).getD 0 ≤ (jsDateOf (dpGet b dim)).getD 0))) := by
  constructor
  · intro data pm
    have he : sortChartData data pm t =
        data.mergeSort (fun a b => strLe (sortKeyStr a pm) (sortKeyStr b pm)) := by
      rw [sortChartData, if_pos ht]
    constructor
    · rw [he]; exact List.mergeSort_perm data _
    · intro _hkeys
      rw [he]
      exact sorted_mergeSort_key (fun dp => (sortKeyStr dp pm).toList) data
  · intro data pm dim
    have he : sortCustomChartData data pm t dim =
        data.mergeSort (fun a b => customLeVal (dpGet a dim) (dpGet b dim)) := by
      rw [sortCustomChartData, if_pos ht]
    refine ⟨?_, ?_, ?_⟩
    · rw [he]; exact List.mergeSort_perm data _
    · intro hnum
      have hnan : ∀ dp ∈ data, jsValIsNaN (dpGet dp dim) = false := by
        intro dp hdp
        have h := hnum dp hdp
        rcases hv : dpGet dp dim with q | _ | sv | b | _ | _ <;> rw [hv] at h <;>
          simp [numericKey] at h <;> simp [jsValIsNaN]
        exact h.1
      rw [he]
      rw [mergeSort_congr (fun a b => customLeVal (dpGet a dim) (dpGet b dim))
        (fun a b => decide (parseNum (dpGet a dim) ≤ parseNum (dpGet b dim))) data ?_]
      · exact sorted_mergeSort_key (fun dp => parseNum (dpGet dp dim)) data
      · intro a ha b hb
        simp [customLeVal, hnan a ha, hnan b hb]
    · intro hdate
      rw [he]
      rw [mergeSort_congr (fun a b => customLeVal (dpGet a dim) (dpGet b dim))
        (fun a b => decide ((jsDateOf (dpGet a dim)).getD 0 ≤ (jsDateOf (dpGet b dim)).getD 0))
        data ?_]
      · exact sorted_mergeSort_key (fun dp => (jsDateOf (dpGet dp dim)).getD 0) data
      · intro a ha b hb
        obtain ⟨hna, hda⟩ := hdate a ha
        obtain ⟨hnb, hdb⟩ := hdate b hb
        obtain ⟨x, hx⟩ := Option.isSome_iff_exists.mp hda
        obtain ⟨y, hy⟩ := Option.isSome_iff_exists.mp hdb
        simp [customLeVal, hna, hnb, hx, hy]

/-- Counterexample to C7 as stated: on the standard path the keys `"2"` and
`"10"`, which both parse as numbers, are ordered by string comparison only —
the line-chart output places `"10"` before `"2"`, which violates the claimed
numeric precedence (`2 < 10`), so the output is not sorted by the claimed
pairwise comparison. -/
theorem sortChartData_precedence_counterexample :
    sortChartData
      [{ dimName := "d", dimValue := "2", vals := [("m", 5)] },
       { dimName := "d", dimValue := "10", vals := [("m", 3)] }] "m" "line" =
      [{ dimName := "d", dimValue := "10", vals := [("m", 3)] },
       { dimName := "d", dimValue := "2", vals := [("m", 5)] }] ∧
    ¬ (sortChartData
      [{ dimName := "d", dimValue := "2", vals := [("m", 5)] },
       { dimName := "d", dimValue := "10", vals := [("m", 3)] }] "m" "line").Pairwise
        (fun a b => customLeVal (dpGet a "d") (dpGet b "d") = true) := by
  have he : sortChartData
      [{ dimName := "d", dimValue := "2", vals := [("m", 5)] },
       { dimName := "d", dimValue := "10", vals := [("m", 3)] }] "m" "line" =
      [{ dimName := "d", dimValue := "10", vals := [("m", 3)] },
       { dimName := "d", dimValue := "2", vals := [("m", 5)] }] := by
    rw [sortChartData, if_pos (Or.inl rfl)]
    simp [List.mergeSort, List.splitInTwo, List.splitAt, List.splitAt.go, List.merge,
      strLe, sortKeyStr, findKey, dpGet]
    decide
  refine ⟨he, ?_⟩
  rw [he]
  simp only [List.pairwise_cons, List.mem_singleton, forall_eq]
  intro hcontra
  exact absurd hcontra.1 (by decide)

/-- Witness for C7: on the custom path the numeric keys `"2"`, `"10"` are
sorted numerically; on the standard path the same digit keys (with the
non-index measure name `"m"`) are in plain string order, and the output
permutes the input. -/
theorem sortLineArea_spec_witness :
    (sortCustomChartData
      [{ dimName := "d", dimValue := "2", vals := [("m", 5)] },
       { dimName := "d", dimValue := "10", vals := [("m", 3)] }] "m" "line" "d").Pairwise
        (fun a b => parseNum (dpGet a "d") ≤ parseNum (dpGet b "d")) ∧
    (sortChartData
      [{ dimName := "d", dimValue := "2", vals := [("m", 5)] },
       { dimName := "d", dimValue := "10", vals := [("m", 3)] }] "m" "line").Pairwise
        (fun a b => (sortKeyStr a "m").toList ≤ (sortKeyStr b "m").toList) ∧
    List.Perm
      (sortChartData [{ dimName := "d", dimValue := "2", vals := [("m", 5)] }] "m" "area")
      [{ dimName := "d", dimValue := "2", vals := [("m", 5)] }] := by
  refine ⟨?_, ?_, ?_⟩
  · exact (((sortLineArea_spec "line" (Or.inl rfl)).2
      [{ dimName := "d", dimValue := "2", vals := [("m", 5)] },
       { dimName := "d", dimValue := "10", vals := [("m", 3)] }] "m" "d").2.1) (by decide)
  · exact (((sortLineArea_spec "line" (Or.inl rfl)).1
      [{ dimName := "d", dimValue := "2", vals := [("m", 5)] },
       { dimName := "d", dimValue := "10", vals := [("m", 3)] }] "m").2) (by decide)
  · exact ((sortLineArea_spec "area" (Or.inr rfl)).1
      [{ dimName := "d", dimValue := "2", vals := [("m", 5)] }] "m").1

end Dashboard

namespace Dashboard

/-! ## C4 — all-or-nothing suggestion validation -/

theorem getFallbackSuggestions_kpis_ne (schema : Schema) (h : schema.columns ≠ []) :
    (getFallbackSuggestions schema).kpis ≠ [] := by
  have hl : schema.columns.length > 0 := List.length_pos.mpr h
  simp [getFallbackSuggestions, hl]

/-- C4 (amended): if after per-item validation either the accepted KPI list
or the accepted chart list is empty, `validateSuggestions` returns the
FallbackSuggester's complete output for the schema in place of the entire
candidate set; otherwise it returns exactly the accepted items.
Consequently, whenever the schema has at least one column, the result never
has an empty KPI list and an empty chart list simultaneously.  (For the
degenerate zero-column schema the fallback itself is empty, which is the
counterexample to the unconditional claim.) -/
theorem validateSuggestions_allOrNothing (c : CandidateSuggestions) (schema : Schema) :
    ((validKpis c schema = [] ∨ validCharts c schema = []) →
      validateSuggestions c schema = getFallbackSuggestions schema) ∧
    (validKpis c schema ≠ [] → validCharts c schema ≠ [] →
      validateSuggestions c schema =
        { kpis := validKpis c schema, charts := validCharts c schema,
          insights := c.insights.getD [] }) ∧
    (schema.columns ≠ [] →
      ¬ ((validateSuggestions c schema).kpis = [] ∧
         (validateSuggestions c schema).charts = [])) := by
  refine ⟨?_, ?_, ?_⟩
  · intro h
    simp only [validateSuggestions]
    rw [if_pos h]
  · intro h1 h2
    simp only [validateSuggestions]
    rw [if_neg (by tauto)]
  · intro hcol hcontra
    by_cases h : validKpis c schema = [] ∨ validCharts c schema = []
    · have he : validateSuggestions c schema = getFallbackSuggestions schema := by
        simp only [validateSuggestions]; rw [if_pos h]
      rw [he] at hcontra
      exact getFallbackSuggestions_kpis_ne schema hcol hcontra.1
    · have he : validateSuggestions c schema =
          { kpis := validKpis c schema, charts := validCharts c schema,
            insights := c.insights.getD [] } := by
        simp only [validateSuggestions]; rw [if_neg h]
      rw [he] at hcontra
      exact absurd hcontra.1 (by tauto)

/-- Counterexample to C4's unconditional non-emptiness consequence: for the
zero-column schema and an empty candidate, the substituted fallback output
itself has an empty KPI list and an empty chart list simultaneously. -/
theorem validateSuggestions_allOrNothing_counterexample :
    (validateSuggestions { kpis := some [], charts := some [], insights := none }
      { columns := [], measures := [], dimensions := [] }).kpis = [] ∧
    (validateSuggestions { kpis := some [], charts := some [], insights := none }
      { columns := [], measures := [], dimensions := [] }).charts = [] := by
  constructor <;> rfl

/-- Witness for C4 at a one-measure/one-dimension schema: a candidate whose
charts all fail validation is replaced by the complete fallback output, and
the result never has both lists empty. -/
theorem validateSuggestions_allOrNothing_witness :
    validateSuggestions
      { kpis := some
          [{ name := "Total Revenue", column := "revenue",
             calculation := "sum", format := "currency" }],
        charts := some
          [{ title := "Bad", ctype := "bar",
             measures := some ["nonexistent"], dimensions := some ["region"] }],
        insights := none }
      { columns :=
          [{ name := "revenue", type := DType.number, nullable := false,
             uniqueValues := 10, sampleValues := [] },
           { name := "region", type := DType.strT, nullable := false,
             uniqueValues := 3, sampleValues := [] }],
        measures :=
          [{ name := "revenue", type := DType.number, nullable := false,
             uniqueValues := 10, sampleValues := [] }],
        dimensions :=
          [{ name := "region", type := DType.strT, nullable := false,
             uniqueValues := 3, sampleValues := [] }] } =
      getFallbackSuggestions
      { columns :=
          [{ name := "revenue", type := DType.number, nullable := false,
             uniqueValues := 10, sampleValues := [] },
           { name := "region", type := DType.strT, nullable := false,
             uniqueValues := 3, sampleValues := [] }],
        measures :=
          [{ name := "revenue", type := DType.number, nullable := false,
             uniqueValues := 10, sampleValues := [] }],
        dimensions :=
          [{ name := "region", type := DType.strT, nullable := false,
             uniqueValues := 3, sampleValues := [] }] } := by
  exact (validateSuggestions_allOrNothing _ _).1 (Or.inr (by decide))

end Dashboard

namespace Dashboard

/-! ## C5 — failure absorption in the suggestion orchestrator -/

theorem getFallbackSuggestions_wellFormed (schema : Schema) :
    wellFormed schema (getFallbackSuggestions schema) := by
  constructor
  · intro kpi hk
    simp only [getFallbackSuggestions] at hk
    have hk' := List.mem_of_mem_take hk
    by_cases hc : schema.columns.length > 0
    · rw [if_pos hc] at hk'
      rcases List.mem_cons.mp hk' with h | h
      · subst h; left; rfl
      · obtain ⟨m, hm, rfl⟩ := List.mem_map.mp h
        right; exact ⟨m, List.mem_of_mem_take hm, rfl⟩
    · rw [if_neg hc] at hk'
      obtain ⟨m, hm, rfl⟩ := List.mem_map.mp hk'
      right; exact ⟨m, List.mem_of_mem_take hm, rfl⟩
  · intro ch hch
    simp only [getFallbackSuggestions] at hch
    have hch' := List.mem_of_mem_take hch
    rcases hm : schema.measures with _ | ⟨pm, restM⟩
    · rw [hm] at hch'; simp at hch'
    · rcases hd : schema.dimensions with _ | ⟨pd, restD⟩
      · rw [hm, hd] at hch'; simp at hch'
      · rw [hm, hd] at hch'
        have hpm : pm ∈ pm :: restM := List.mem_cons_self _ _
        have hpd : pd ∈ pd :: restD := List.mem_cons_self _ _
        simp only [List.mem_append] at hch'
        have hgoal : ∀ dimC : ColumnInfo, dimC ∈ pd :: restD →
            ch = { title := ch.title, ctype := ch.ctype, measures := [pm.name],
                   dimensions := [dimC.name] } →
            ch.measures ≠ [] ∧ ch.dimensions ≠ [] ∧
            (∀ m ∈ ch.measures, ∃ mm ∈ pm :: restM, mm.name = m) ∧
            (∀ d ∈ ch.dimensions, ∃ dd ∈ pd :: restD, dd.name = d) := by
          intro dimC hdim hche
          refine ⟨by rw [hche]; simp, by rw [hche]; simp, ?_, ?_⟩
          · intro m hmm
            rw [hche] at hmm
            simp only [List.mem_singleton] at hmm
            exact ⟨pm, hpm, hmm.symm⟩
          · intro d hdd
            rw [hche] at hdd
            simp only [List.mem_singleton] at hdd
            exact ⟨dimC, hdim, hdd.symm⟩
        rcases hch' with ((hb | hl) | hp) | ha
        · simp only [List.mem_singleton] at hb
          exact hgoal pd hpd (by rw [hb])
        · by_cases h1 : restM.length > 0
          · rw [if_pos h1] at hl
            simp only [List.mem_singleton] at hl
            exact hgoal pd hpd (by rw [hl])
          · rw [if_neg h1] at hl
            simp at hl
        · by_cases h2 : pd.uniqueValues ≤ 10
          · rw [if_pos h2] at hp
            simp only [List.mem_singleton] at hp
            exact hgoal pd hpd (by rw [hp])
          · rw [if_neg h2] at hp
            simp at hp
        · rcases hf : List.find? (fun d => d.type = DType.date) (pd :: restD) with _ | td <;>
            rw [hf] at ha
          · simp at ha
          · have htd : td ∈ pd :: restD := List.mem_of_find?_eq_some hf
            simp only [List.mem_singleton] at ha
            exact hgoal td htd (by rw [ha])

theorem validKpis_wellFormed (c : CandidateSuggestions) (schema : Schema)
    (kpi : Kpi) (hk : kpi ∈ validKpis c schema) :
    kpi.column = "*" ∨ ∃ m ∈ schema.measures, m.name = kpi.column := by
  simp only [validKpis] at hk
  rcases hc : c.kpis with _ | ks <;> rw [hc] at hk
  · simp at hk
  · obtain ⟨k, _hkmem, hf⟩ := List.mem_filterMap.mp hk
    by_cases hcond : k.name ≠ "" ∧ k.column ≠ "" ∧
        ((schema.measures.any fun m => decide (m.name = k.column)) = true ∨ k.column = "*")
    · rw [if_pos hcond] at hf
      obtain rfl := Option.some_inj.mp hf
      rcases hcond.2.2 with hany | hstar
      · obtain ⟨m, hm, hname⟩ := List.any_eq_true.mp hany
        right; exact ⟨m, hm, by simpa using of_decide_eq_true hname⟩
      · left; simpa using hstar
    · rw [if_neg hcond] at hf; cases hf

theorem validCharts_wellFormed (c : CandidateSuggestions) (schema : Schema)
    (ch : Chart) (hch : ch ∈ validCharts c schema) :
    ch.measures ≠ [] ∧ ch.dimensions ≠ [] ∧
    (∀ m ∈ ch.measures, ∃ mm ∈ schema.measures, mm.name = m) ∧
    (∀ d ∈ ch.dimensions, ∃ dd ∈ schema.dimensions, dd.name = d) := by
  simp only [validCharts] at hch
  rcases hc : c.charts with _ | cs <;> rw [hc] at hch
  · simp at hch
  · obtain ⟨k, _hkmem, hf⟩ := List.mem_filterMap.mp hch
    rcases hms : k.measures with _ | ms <;> rcases hds : k.dimensions with _ | ds <;>
      simp only [hms, hds] at hf
    · cases hf
    · cases hf
    · cases hf
    · by_cases hcond1 : k.title ≠ "" ∧ k.ctype ≠ ""
      · rw [if_pos hcond1] at hf
        by_cases hcond2 :
            (ms.filter fun m => schema.measures.any fun mm => decide (mm.name = m)) ≠ [] ∧
            (ds.filter fun d => schema.dimensions.any fun dd => decide (dd.name = d)) ≠ []
        · rw [if_pos hcond2] at hf
          obtain rfl := Option.some_inj.mp hf
          refine ⟨hcond2.1, hcond2.2, ?_, ?_⟩
          · intro m hm
            have := (List.mem_filter.mp hm).2
            obtain ⟨mm, hmm, he⟩ := List.any_eq_true.mp this
            exact ⟨mm, hmm, of_decide_eq_true he⟩
          · intro d hd
            have := (List.mem_filter.mp hd).2
            obtain ⟨dd, hdd, he⟩ := List.any_eq_true.mp this
            exact ⟨dd, hdd, of_decide_eq_true he⟩
        · rw [if_neg hcond2] at hf; cases hf
      · rw [if_neg hcond1] at hf; cases hf

theorem validateSuggestions_wellFormed (c : CandidateSuggestions) (schema : Schema) :
    wellFormed schema (validateSuggestions c schema) := by
  by_cases h : validKpis c schema = [] ∨ validCharts c schema = []
  · have he : validateSuggestions c schema = getFallbackSuggestions schema := by
      simp only [validateSuggestions]; rw [if_pos h]
    rw [he]
    exact getFallbackSuggestions_wellFormed schema
  · have he : validateSuggestions c schema =
        { kpis := validKpis c schema, charts := validCharts c schema,
          insights := c.insights.getD [] } := by
      simp only [validateSuggestions]; rw [if_neg h]
    rw [he]
    exact ⟨fun kpi hk => validKpis_wellFormed c schema kpi hk,
           fun ch hch => validCharts_wellFormed c schema ch hch⟩

/-- C5: every failure of the external suggestion request — missing API key,
non-2xx response, missing content, or unparsable embedded JSON — is absorbed
inside the orchestrator: on a cache miss, each failure outcome makes
`getSuggestions` return exactly the deterministic fallback suggestions;
no outcome propagates an error (the result is always the cached set, the
validated candidate, or the fallback), and on a cache miss the result is
always structurally valid against the schema. -/
theorem getSuggestions_absorbs_failures (schema : Schema) (cache : Cache)
    (outcome : AIOutcome)
    (hmiss : List.lookup (generateCacheKey schema) cache = none) :
    ((outcome = AIOutcome.noKey ∨ outcome = AIOutcome.requestError ∨
      outcome = AIOutcome.noContent ∨ outcome = AIOutcome.unparsable) →
      (getSuggestions cache schema outcome).1 = getFallbackSuggestions schema) ∧
    ((∃ cand, outcome = AIOutcome.parsed cand ∧
        (getSuggestions cache schema outcome).1 = validateSuggestions cand schema) ∨
      (getSuggestions cache schema outcome).1 = getFallbackSuggestions schema) ∧
    wellFormed schema (getSuggestions cache schema outcome).1 := by
  have he : ∀ o, getSuggestions cache schema o =
      (match getAISuggestions schema o with
        | .ok s => s
        | .error _ => getFallbackSuggestions schema,
       (generateCacheKey schema,
        match getAISuggestions schema o with
        | .ok s => s
        | .error _ => getFallbackSuggestions schema) :: cache) := by
    intro o
    simp only [getSuggestions, hmiss]
  refine ⟨?_, ?_, ?_⟩
  · rintro (rfl | rfl | rfl | rfl) <;> rw [he] <;> rfl
  · cases outcome with
    | parsed cand => left; exact ⟨cand, rfl, by rw [he]; rfl⟩
    | noKey => right; rw [he]; rfl
    | requestError => right; rw [he]; rfl
    | noContent => right; rw [he]; rfl
    | unparsable => right; rw [he]; rfl
  · cases outcome with
    | parsed cand =>
      have : (getSuggestions cache schema (AIOutcome.parsed cand)).1 =
          validateSuggestions cand schema := by rw [he]; rfl
      rw [this]; exact validateSuggestions_wellFormed cand schema
    | noKey =>
      have : (getSuggestions cache schema AIOutcome.noKey).1 =
          getFallbackSuggestions schema := by rw [he]; rfl
      rw [this]; exact getFallbackSuggestions_wellFormed schema
    | requestError =>
      have : (getSuggestions cache schema AIOutcome.requestError).1 =
          getFallbackSuggestions schema := by rw [he]; rfl
      rw [this]; exact getFallbackSuggestions_wellFormed schema
    | noContent =>
      have : (getSuggestions cache schema AIOutcome.noContent).1 =
          getFallbackSuggestions schema := by rw [he]; rfl
      rw [this]; exact getFallbackSuggestions_wellFormed schema
    | unparsable =>
      have : (getSuggestions cache schema AIOutcome.unparsable).1 =
          getFallbackSuggestions schema := by rw [he]; rfl
      rw [this]; exact getFallbackSuggestions_wellFormed schema

/-- Witness for C5: with an empty cache and a missing API key, the
orchestrator returns exactly the fallback suggestions for a concrete
schema. -/
theorem getSuggestions_absorbs_failures_witness :
    (getSuggestions []
      { columns :=
          [{ name := "region", type := DType.strT, nullable := false,
             uniqueValues := 3, sampleValues := [] }],
        measures := [],
        dimensions :=
          [{ name := "region", type := DType.strT, nullable := false,
             uniqueValues := 3, sampleValues := [] }] }
      AIOutcome.noKey).1 =
    getFallbackSuggestions
      { columns :=
          [{ name := "region", type := DType.strT, nullable := false,
             uniqueValues := 3, sampleValues := [] }],
        measures := [],
        dimensions :=
          [{ name := "region", type := DType.strT, nullable := false,
             uniqueValues := 3, sampleValues := [] }] } := by
  exact (getSuggestions_absorbs_failures _ _ _ (by rfl)).1 (Or.inl rfl)

end Dashboard

namespace Dashboard

/-! ## C10 — cache-key truncation and cross-schema collisions -/

theorem b64Chunks_take_congr :
    ∀ (k : Nat) (b1 b2 : List Nat), b1.take (3 * k) = b2.take (3 * k) →
    (b64Chunks b1).take (4 * k) = (b64Chunks b2).take (4 * k) := by
  intro k
  induction k with
  | zero => intro b1 b2 _; simp
  | succ k ih =>
    intro b1 b2 h
    have h3 : 3 * (k + 1) = 3 * k + 1 + 1 + 1 := by ring
    have h4 : 4 * (k + 1) = 4 * k + 1 + 1 + 1 + 1 := by ring
    rw [h3] at h
    rw [h4]
    rcases b1 with _ | ⟨x1, _ | ⟨y1, _ | ⟨z1, r1⟩⟩⟩ <;>
      rcases b2 with _ | ⟨x2, _ | ⟨y2, _ | ⟨z2, r2⟩⟩⟩ <;>
      simp only [List.take_succ_cons, List.take_nil, List.cons.injEq, List.nil_eq,
        reduceCtorEq, List.cons_ne_nil, false_and, and_false] at h <;>
      simp_all [b64Chunks, List.take_succ_cons]
    exact ih r1 r2 (by simp_all)

/-- C10: the suggestion-cache key is the Base64 of the `|`-joined
`name:type` descriptors truncated to 20 characters, so it depends only on
the first 15 bytes of the joined string: schemas agreeing on those 15 bytes
get equal keys, and after a first `getSuggestions` call caches its result,
a call for the other schema is a cache hit returning the first schema's
cached suggestion set. -/
theorem generateCacheKey_collision (s1 s2 : Schema)
    (h : (strBytes (cacheKeySource s1)).take 15 = (strBytes (cacheKeySource s2)).take 15) :
    generateCacheKey s1 = generateCacheKey s2 ∧
    (∀ (cache : Cache) (o1 o2 : AIOutcome),
      List.lookup (generateCacheKey s1) cache = none →
      (getSuggestions ((getSuggestions cache s1 o1).2) s2 o2).1 =
        (getSuggestions cache s1 o1).1) := by
  have hk : generateCacheKey s1 = generateCacheKey s2 := by
    unfold generateCacheKey
    have h15 : (strBytes (cacheKeySource s1)).take (3 * 5) =
        (strBytes (cacheKeySource s2)).take (3 * 5) := by
      simpa using h
    have h20 := b64Chunks_take_congr 5 _ _ h15
    simp only [show (4 : Nat) * 5 = 20 from rfl] at h20
    rw [h20]
  refine ⟨hk, ?_⟩
  intro cache o1 o2 hmiss
  have he1 : getSuggestions cache s1 o1 =
      (match getAISuggestions s1 o1 with
        | .ok s => s
        | .error _ => getFallbackSuggestions s1,
       (generateCacheKey s1,
        match getAISuggestions s1 o1 with
        | .ok s => s
        | .error _ => getFallbackSuggestions s1) :: cache) := by
    simp only [getSuggestions, hmiss]
  rw [he1]
  simp only [getSuggestions]
  rw [lookup_cons', if_pos hk.symm]

/-- Witness for C10: two one-column schemas whose descriptor strings share
the 15-byte prefix `"abcdefghijklmn:"` but differ in the column type
(`number` vs `date`) receive the same cache key, and the second schema's
`getSuggestions` call returns the set cached for the first. -/
theorem generateCacheKey_collision_witness :
    generateCacheKey
      { columns :=
          [{ name := "abcdefghijklmn", type := DType.number,
             nullable := false, uniqueValues := 9, sampleValues := [] }],
        measures := [], dimensions := [] } =
    generateCacheKey
      { columns :=
          [{ name := "abcdefghijklmn", type := DType.date,
             nullable := false, uniqueValues := 9, sampleValues := [] }],
        measures := [], dimensions := [] } ∧
    (getSuggestions
      ((getSuggestions []
        { columns :=
            [{ name := "abcdefghijklmn", type := DType.number,
               nullable := false, uniqueValues := 9, sampleValues := [] }],
          measures := [], dimensions := [] } AIOutcome.noKey).2)
      { columns :=
          [{ name := "abcdefghijklmn", type := DType.date,
             nullable := false, uniqueValues := 9, sampleValues := [] }],
        measures := [], dimensions := [] } AIOutcome.noKey).1 =
    (getSuggestions []
      { columns :=
          [{ name := "abcdefghijklmn", type := DType.number,
             nullable := false, uniqueValues := 9, sampleValues := [] }],
        measures := [], dimensions := [] } AIOutcome.noKey).1 := by
  have h := generateCacheKey_collision
    { columns :=
        [{ name := "abcdefghijklmn", type := DType.number,
           nullable := false, uniqueValues := 9, sampleValues := [] }],
      measures := [], dimensions := [] }
    { columns :=
        [{ name := "abcdefghijklmn", type := DType.date,
           nullable := false, uniqueValues := 9, sampleValues := [] }],
      measures := [], dimensions := [] }
    (by decide)
  exact ⟨h.1, h.2 [] AIOutcome.noKey AIOutcome.noKey (by rfl)⟩

end Dashboard
